import Mathlib

/-!
Verification development for the Qapla chess engine core.

This file gives a shallow embedding of the parts of the Qapla sources that
the checked properties talk about:

* `ClockSetting` (src/unnamed/part_001, clocksetting.h): plain data record
  with the setter and getter functions transcribed from the C++ class.
* `calcSearchTime` (src/search/iterativedeepening.h): the soft time budget.
* the transposition-table default sizing (src/search/iterativedeepening.h
  constructor; the table internals are modelled from the spec since tt.h is
  not among the sources).
* the bitbase generator (src/bitbase/bitbasegenerator.cpp): the iterative
  sweep value computation, the initial mate/stalemate sweep, the
  per-workpackage loop with its fatal consistency abort, the outer sweep
  loop, and the reverse-move candidate generation.
* the bitbase index bijection, modelled from the spec (bitbaseindex.h and
  boardaccess.h are not among the sources).

Machine integers are modelled as Nat (unsigned) and Int (signed); board
squares are Nat in 0..63 with A1 = 0, rank-major; bitboards are lists of
squares; positions are abstracted to exactly the data the embedded
functions read from them.
-/

namespace Qapla

/-! ## ClockSetting (src/unnamed/part_001) -/

/-- The private enum Mode of ClockSetting, with C++ enumerator values
compute = 0, analyze = 1, ponder = 2. -/
inductive Mode where
  | compute
  | analyze
  | ponder
deriving DecidableEq

/-- The C++ integral value of each Mode enumerator, used by the implicit
enum-to-bool conversion in setAnalyseMode. -/
def Mode.toCInt : Mode → Nat
  | Mode.compute => 0
  | Mode.analyze => 1
  | Mode.ponder => 2

/-- The data members of ClockSetting. Unsigned C++ fields are Nat; the
int64_t field timeToThinkForAllMovesInMilliseconds is Int. -/
structure ClockSetting where
  searchDepth : Nat
  nodeCount : Nat
  mate : Nat
  userClock : Nat
  moveAmountForClock : Nat
  playedMovesInGame : Nat
  timeToThinkForAllMovesInMilliseconds : Int
  timeIncrementPerMoveInMilliseconds : Nat
  exactTimePerMoveInMilliseconds : Nat
  calculationStartTime : Nat
  mode : Mode
deriving DecidableEq

/-- Getter for the total thinking time. The C++ getter returns uint64_t
while the field is int64_t, so the value is converted modulo 2 to the 64. -/
def ClockSetting.getTimeToThinkForAllMovesInMilliseconds (s : ClockSetting) : Nat :=
  (s.timeToThinkForAllMovesInMilliseconds % ((2 : Int) ^ 64)).toNat

/-- Getter for the per-move time increment. -/
def ClockSetting.getTimeIncrementPerMoveInMilliseconds (s : ClockSetting) : Nat :=
  s.timeIncrementPerMoveInMilliseconds

/-- Getter for the exact time per move. -/
def ClockSetting.getExactTimePerMoveInMilliseconds (s : ClockSetting) : Nat :=
  s.exactTimePerMoveInMilliseconds

/-- Getter for the amount of moves to be played in the clock time. -/
def ClockSetting.getMoveAmountForClock (s : ClockSetting) : Nat :=
  s.moveAmountForClock

/-- Getter for the search depth limit. -/
def ClockSetting.getSearchDepthLimit (s : ClockSetting) : Nat :=
  s.searchDepth

/-- Getter for the amount of moves already played in the game. -/
def ClockSetting.getPlayedMovesInGame (s : ClockSetting) : Nat :=
  s.playedMovesInGame

/-- setExactTimePerMoveInMilliseconds: sets the exact time per move and
zeroes the total thinking time, the increment and the move amount. -/
def ClockSetting.setExactTimePerMoveInMilliseconds (s : ClockSetting) (milliseconds : Nat) :
    ClockSetting :=
  { s with
    exactTimePerMoveInMilliseconds := milliseconds
    timeToThinkForAllMovesInMilliseconds := 0
    timeIncrementPerMoveInMilliseconds := 0
    moveAmountForClock := 0 }

/-- setAnalyseMode. The C++ body is: underscore-mode = analyze ? Mode::analyze
: Mode::compute. The condition names the enumerator analyze (value 1), not the
bool parameter analyse, so the condition is the constant conversion of the
enumerator to bool. The parameter is transcribed but, as in the source, never
read. -/
def ClockSetting.setAnalyseMode (s : ClockSetting) (analyseFlag : Bool) : ClockSetting :=
  { s with mode := if Mode.toCInt Mode.analyze ≠ 0 then Mode.analyze else Mode.compute }

/-- getAnalyseMode: mode equals Mode::analyze. -/
def ClockSetting.getAnalyseMode (s : ClockSetting) : Bool :=
  match s.mode with
  | Mode.analyze => true
  | _ => false

/-- setPonderMode: sets the mode to ponder. -/
def ClockSetting.setPonderMode (s : ClockSetting) : ClockSetting :=
  { s with mode := Mode.ponder }

/-- isPonderMode: mode equals Mode::ponder. -/
def ClockSetting.isPonderMode (s : ClockSetting) : Bool :=
  match s.mode with
  | Mode.ponder => true
  | _ => false

/-! ## Time budget (src/search/iterativedeepening.h, calcSearchTime) -/

/-- IterativeDeepening::calcSearchTime: the soft time budget for the next
move. The local variable movesToSearchInTime is replaced by 80 when it is 0,
mirrored here by let-shadowing. -/
def calcSearchTime (clockSetting : ClockSetting) : Nat :=
  let movesToSearchInTime := clockSetting.getMoveAmountForClock
  let movesToSearchInTime := if movesToSearchInTime = 0 then 80 else movesToSearchInTime
  clockSetting.getTimeToThinkForAllMovesInMilliseconds / movesToSearchInTime +
    clockSetting.getTimeIncrementPerMoveInMilliseconds

/-- The soft budget formula exactly as claim C5 states it:
time left divided by max(moves to go, 80), plus the increment. -/
def claimedSoftBudget (clockSetting : ClockSetting) : Nat :=
  clockSetting.getTimeToThinkForAllMovesInMilliseconds /
      max clockSetting.getMoveAmountForClock 80 +
    clockSetting.getTimeIncrementPerMoveInMilliseconds

/-- The soft budget formula as amended: the divisor 80 is used only when the
moves-to-go setting is 0 (unset); otherwise the stored moves-to-go divides
directly, even when it is below 80. -/
def amendedSoftBudget (clockSetting : ClockSetting) : Nat :=
  clockSetting.getTimeToThinkForAllMovesInMilliseconds /
      (if clockSetting.getMoveAmountForClock = 0 then 80
       else clockSetting.getMoveAmountForClock) +
    clockSetting.getTimeIncrementPerMoveInMilliseconds

/-- A concrete clock setting: 800 ms left, 40 moves to go, no increment. -/
def c5Clock : ClockSetting :=
  { searchDepth := 0
    nodeCount := 0
    mate := 0
    userClock := 0
    moveAmountForClock := 40
    playedMovesInGame := 0
    timeToThinkForAllMovesInMilliseconds := 800
    timeIncrementPerMoveInMilliseconds := 0
    exactTimePerMoveInMilliseconds := 0
    calculationStartTime := 0
    mode := Mode.compute }

/-! ## Transposition table default sizing (src/search/iterativedeepening.h) -/

/-- The size request of the default IterativeDeepening constructor, which
calls tt.setSizeInKilobytes with 32736. -/
def defaultTTSizeInKilobytes : Nat := 32736

/-- Modelled from the spec: bytes per transposition bucket. tt.h is not among
the sources; the spec states 16-byte entries and buckets of at least 2
entries, so a bucket is 32 bytes. -/
def TT_BUCKET_BYTES : Nat := 32

/-- Floor of the base-2 logarithm, by fuel-bounded halving (64 halvings
suffice for any 64-bit quantity). -/
def floorLog2Aux : Nat → Nat → Nat
  | 0, _ => 0
  | fuel + 1, n => if n < 2 then 0 else floorLog2Aux fuel (n / 2) + 1

/-- Modelled from the spec: TT::setSizeInKilobytes. tt.h is not among the
sources; the spec states the table holds N buckets with N a power of two
chosen for the requested footprint, modelled as the largest power of two
whose buckets fit into the requested size. Returns the bucket count. -/
def setSizeInKilobytes (sizeInKB : Nat) : Nat :=
  2 ^ floorLog2Aux 64 (sizeInKB * 1024 / TT_BUCKET_BYTES)

/-- The memory footprint in bytes of the table allocated for a size request,
under the spec-modelled sizing. -/
def ttFootprintInBytes (sizeInKB : Nat) : Nat :=
  setSizeInKilobytes sizeInKB * TT_BUCKET_BYTES

/-! ## Bitbase generator (src/bitbase/bitbasegenerator.cpp)

The generator functions read a position only through a few queries (side to
move, move list, check state, FEN) and through BoardAccess index lookups.
Those queries are abstracted into plain data records; the control flow of the
generator functions themselves is transcribed from the source. -/

/-- One entry of the move list seen by BitbaseGenerator::computeValue: the
capture-or-promotion flag of the move and the bitbase index of the position
reached by it (BoardAccess::getIndex with the side to move flipped). The
source computes the index only for non-capture non-promotion moves; the field
is carried for every move but read only in that case. -/
structure GenMove where
  isCaptureOrPromote : Bool
  indexAfterMove : Nat
deriving DecidableEq

/-- The move loop of BitbaseGenerator::computeValue. The accumulator is the
local variable result; the two conditional breaks of the C++ loop are the
two early returns. -/
def computeValueLoop (bitbase : Nat → Bool) (whiteToMove : Bool) :
    List GenMove → Bool → Bool
  | [], result => result
  | move :: rest, result =>
    let nextResult := if !move.isCaptureOrPromote then bitbase move.indexAfterMove else result
    if whiteToMove && nextResult then nextResult
    else if !whiteToMove && !nextResult then nextResult
    else computeValueLoop bitbase whiteToMove rest nextResult

/-- BitbaseGenerator::computeValue: probes every move of the list against the
bitbase of won positions; result starts false for white to move and true for
black to move. The verbose printing of the source is omitted. -/
def computeValue (bitbase : Nat → Bool) (whiteToMove : Bool) (moveList : List GenMove) : Bool :=
  computeValueLoop bitbase whiteToMove moveList (if whiteToMove then false else true)

/-- Modelled from the spec: GenerationState (generationstate.h is not among
the sources). Per index, the generation state keeps the tags won, not_won
(lossOrDraw), illegal, and the transient candidate flag, each modelled as one
bit function over indices. -/
structure GenState where
  won : Nat → Bool
  lossOrDraw : Nat → Bool
  illegal : Nat → Bool
  candidate : Nat → Bool

/-- Modelled from the spec: GenerationState::setWin marks an index won. -/
def GenState.setWin (st : GenState) (index : Nat) : GenState :=
  { st with won := fun j => j == index || st.won j }

/-- Modelled from the spec: GenerationState::setLossOrDraw marks an index
not won. -/
def GenState.setLossOrDraw (st : GenState) (index : Nat) : GenState :=
  { st with lossOrDraw := fun j => j == index || st.lossOrDraw j }

/-- Modelled from the spec: GenerationState::setIllegal marks an index
illegal. -/
def GenState.setIllegal (st : GenState) (index : Nat) : GenState :=
  { st with illegal := fun j => j == index || st.illegal j }

/-- Modelled from the spec: GenerationState::isCandidate reads the candidate
flag of an index. -/
def GenState.isCandidate (st : GenState) (index : Nat) : Bool :=
  st.candidate index

/-- Modelled from the spec: GenerationState::getWonPositions is the bitbase
of positions currently marked won. -/
def GenState.getWonPositions (st : GenState) : Nat → Bool :=
  st.won

/-- Modelled from the spec: GenerationState::clearAllCandidates resets every
candidate flag. -/
def GenState.clearAllCandidates (st : GenState) : GenState :=
  { st with candidate := fun _ => false }

/-- Modelled from the spec: GenerationState::setCandidates flags every index
of the list as candidate for the next sweep. -/
def GenState.setCandidates (st : GenState) (cands : List Nat) : GenState :=
  { st with candidate := fun j => cands.contains j || st.candidate j }

/-- The bit stored for an index in the bitbase written at the end of the
generation (GenerationState::storeToFile stores the won positions): 1 means
won for the stronger side, 0 means not won. -/
def GenState.storedBitbaseBit (st : GenState) (index : Nat) : Bool :=
  st.getWonPositions index

/-- BitbaseGenerator::computePosition: recomputes the value of the position
at an index from the won positions of the state and marks the index won on
success; returns 1 if the position is a win now and 0 if still unknown,
paired with the updated state. The debug-index printing is omitted. -/
def computePosition (index : Nat) (whiteToMove : Bool) (moveList : List GenMove)
    (st : GenState) : Nat × GenState :=
  if computeValue st.getWonPositions whiteToMove moveList then (1, st.setWin index)
  else (0, st)

/-- One entry of the capture list seen by BitbaseGenerator::initialSearch:
the capture-or-promotion flag and whether the bitbase probe after the move
reports a white win (BitbaseReader::getValueFromSingleBitbase equals Win). -/
structure CapMove where
  isCaptureOrPromote : Bool
  isWhiteWinAfter : Bool
deriving DecidableEq

/-- BitbaseGenerator::initialSearch: runs through the capture moves; a white
capture into a white win yields 1, a black capture into a position that is
not a white win yields -1, otherwise 0. isWhiteToMove is evaluated on the
unchanged position, as in the source after undoMove. -/
def initialSearch (whiteToMove : Bool) : List CapMove → Int
  | [] => 0
  | move :: rest =>
    if !move.isCaptureOrPromote then initialSearch whiteToMove rest
    else if whiteToMove && move.isWhiteWinAfter then 1
    else if !whiteToMove && !move.isWhiteWinAfter then -1
    else initialSearch whiteToMove rest

/-- The data of a position read by BitbaseGenerator::initialComputePosition:
legality (king not to move in check), side to move, check state of the side
to move, number of legal moves, and the capture list for initialSearch. -/
structure InitialPosData where
  isLegalPosition : Bool
  isWhiteToMove : Bool
  isInCheck : Bool
  legalMoveCount : Nat
  captureMoves : List CapMove

/-- BitbaseGenerator::initialComputePosition: marks illegal positions
illegal; with moves, runs the initial capture search and marks win (1) or
loss-or-draw (-1); without moves, a checkmate of black is a win and
everything else (stalemate, checkmate of white) is marked loss or draw.
Returns the win counter increment paired with the updated state. -/
def initialComputePosition (index : Nat) (pos : InitialPosData) (st : GenState) :
    Nat × GenState :=
  if !pos.isLegalPosition then (0, st.setIllegal index)
  else if 0 < pos.legalMoveCount then
    let positionValue := initialSearch pos.isWhiteToMove pos.captureMoves
    if positionValue = 1 then (1, st.setWin index)
    else if positionValue = -1 then (0, st.setLossOrDraw index)
    else (0, st)
  else if !pos.isWhiteToMove && pos.isInCheck then (1, st.setWin index)
  else (0, st.setLossOrDraw index)

/-- The data of the position at one index, as read by
BitbaseGenerator::computeWorkpackage: legality of the decoded index, side to
move, the move list for computeValue, the FEN string, and the candidate
indices that computeCandidates produces when the position becomes won. -/
structure IndexData where
  isLegal : Bool
  whiteToMove : Bool
  moves : List GenMove
  fen : String
  candidates : List Nat

/-- The fatal abort of the generator: exit(1) together with the index and
FEN printed just before it. -/
structure FatalError where
  exitCode : Nat
  index : Nat
  fen : String
deriving DecidableEq

/-- BitbaseGenerator::computeWorkpackage, sequential form: runs through a
work list of indices; an illegal index prints an error and continues; for a
legal index computePosition is run, and outside the first loop a success on
an index whose candidate flag is not set prints the index and FEN and ends
the process with exit code 1 (modelled as the error outcome, after which no
further index is processed); on success the candidate indices of the
position are appended to the accumulated candidate list. -/
def computeWorkpackage (env : Nat → IndexData) (firstLoop : Bool) :
    List Nat → GenState → List Nat → Except FatalError (GenState × List Nat)
  | [], st, candidates => Except.ok (st, candidates)
  | index :: rest, st, candidates =>
    let d := env index
    if !d.isLegal then computeWorkpackage env firstLoop rest st candidates
    else
      let resultPair := computePosition index d.whiteToMove d.moves st
      if !firstLoop && resultPair.1 == 1 && !(st.isCandidate index) then
        Except.error { exitCode := 1, index := index, fen := d.fen }
      else if resultPair.1 == 1 then
        computeWorkpackage env firstLoop rest resultPair.2 (candidates ++ d.candidates)
      else
        computeWorkpackage env firstLoop rest resultPair.2 candidates

/-- The fixed data of one generation run: the index range size and the
per-index position data. -/
structure GenEnv where
  size : Nat
  data : Nat → IndexData

/-- Modelled from the spec: GenerationState::getWork (generationstate.h is
not among the sources). The work set is the union of previously marked
candidate indices, or all indices when the flag is false. -/
def GenState.getWork (st : GenState) (size : Nat) (onlyCandidates : Bool) : List Nat :=
  if onlyCandidates then (List.range size).filter (fun i => st.candidate i)
  else List.range size

/-- The sweep loop of BitbaseGenerator::computeBitbase: for loopCount from 0
below 1024, run a sweep over the work set (all indices on the first sweep,
candidate indices afterwards), count the produced candidates, clear and
re-set the candidate flags, and break when no candidate was produced. The
fuel argument is the remaining loop count, the sweeps argument is loopCount;
returns the final state and the number of executed sweeps, or the fatal
error of an aborted sweep. -/
def computeBitbaseLoop (env : GenEnv) : Nat → Nat → GenState →
    Except FatalError (GenState × Nat)
  | 0, sweeps, st => Except.ok (st, sweeps)
  | fuel + 1, sweeps, st =>
    match computeWorkpackage env.data (sweeps == 0) (st.getWork env.size (!(sweeps == 0))) st [] with
    | Except.error e => Except.error e
    | Except.ok (st1, candidates) =>
      let candidateCount := candidates.length
      let st2 := (st1.clearAllCandidates).setCandidates candidates
      if candidateCount == 0 then Except.ok (st2, sweeps + 1)
      else computeBitbaseLoop env fuel (sweeps + 1) st2

/-- BitbaseGenerator::computeBitbase (the state-and-clock overload): the
sweep loop starting at loopCount 0 with the 1024 iteration bound. -/
def computeBitbase (env : GenEnv) (st : GenState) : Except FatalError (GenState × Nat) :=
  computeBitbaseLoop env 1024 0 st

/-- The number of sweeps a generation run executed (0 on a fatal abort). -/
def sweepsOf (r : Except FatalError (GenState × Nat)) : Nat :=
  match r with
  | Except.ok p => p.2
  | Except.error _ => 0

/-- The won bit of an index in the final state of a generation run (false on
a fatal abort). -/
def finalWonBit (r : Except FatalError (GenState × Nat)) (index : Nat) : Bool :=
  match r with
  | Except.ok p => p.1.won index
  | Except.error _ => false

/-! ## Reverse-move candidate generation
(src/bitbase/bitbasegenerator.cpp, computeCandidates) -/

/-- The piece encoding of the move generator: colors alternate, white first,
as in the C++ Piece enum. -/
inductive Piece where
  | whitePawn
  | blackPawn
  | whiteKnight
  | blackKnight
  | whiteBishop
  | blackBishop
  | whiteRook
  | blackRook
  | whiteQueen
  | blackQueen
  | whiteKing
  | blackKing
deriving DecidableEq

/-- getPieceType equals PAWN. -/
def Piece.isPawn : Piece → Bool
  | Piece.whitePawn => true
  | Piece.blackPawn => true
  | _ => false

/-- The position data read by the per-piece computeCandidates: the attack
mask of each square (as the list of attacked squares), the two king squares,
the occupancy of the board, and the index lookup
BoardAccess::getIndex(!wtm, pieceList, move) for a move of the given piece
from a departure square to a destination square (the side-to-move flip and
the piece list are fixed by the position and folded into the lookup). -/
structure CandEnv where
  pieceAttackMask : Nat → List Nat
  whiteKingSquare : Nat
  blackKingSquare : Nat
  occupied : Nat → Bool
  getIndexAfterMove : Piece → Nat → Nat → Nat

/-- Square constant A3 = 16 (A1 = 0, rank-major). -/
def A3 : Nat := 16

/-- Square constant H6 = 47. -/
def H6 : Nat := 47

/-- Direction constant NORTH = 8. -/
def NORTH : Nat := 8

/-- getRank of a square (0-based: rank R1 is 0, R4 is 3, R5 is 4). -/
def getRank (square : Nat) : Nat := square / 8

/-- BitbaseGenerator::computeCandidates for one piece, identified by a
partially filled move (moving piece and departure square): the attack mask
of the departure square is masked, for a king, by the complement of the
attack mask of the opposing king; a white pawn from rank 3 or above yields
the square one step south and additionally two steps south from rank 4; a
black pawn from rank 6 or below yields the square one step north and
additionally two steps north from rank 5; every non-pawn piece yields each
unoccupied square of its masked attack mask. Each destination is turned into
a candidate index by computeCandidateIndex, i.e. the index lookup with the
side to move flipped. -/
def computeCandidates (env : CandEnv) (movingPiece : Piece) (departure : Nat) : List Nat :=
  let attackBB := env.pieceAttackMask departure
  let attackBB :=
    if movingPiece = Piece.whiteKing then
      attackBB.filter (fun sq => !((env.pieceAttackMask env.blackKingSquare).contains sq))
    else attackBB
  let attackBB :=
    if movingPiece = Piece.blackKing then
      attackBB.filter (fun sq => !((env.pieceAttackMask env.whiteKingSquare).contains sq))
    else attackBB
  let whitePawnCands :=
    if movingPiece = Piece.whitePawn ∧ A3 ≤ departure then
      [env.getIndexAfterMove movingPiece departure (departure - NORTH)] ++
        (if getRank departure = 3 then
          [env.getIndexAfterMove movingPiece departure (departure - 2 * NORTH)]
         else [])
    else []
  let blackPawnCands :=
    if movingPiece = Piece.blackPawn ∧ departure ≤ H6 then
      [env.getIndexAfterMove movingPiece departure (departure + NORTH)] ++
        (if getRank departure = 4 then
          [env.getIndexAfterMove movingPiece departure (departure + 2 * NORTH)]
         else [])
    else []
  let nonPawnCands :=
    if !movingPiece.isPawn then
      (attackBB.filter (fun d => !(env.occupied d))).map
        (fun d => env.getIndexAfterMove movingPiece departure d)
    else []
  whitePawnCands ++ blackPawnCands ++ nonPawnCands

/-- The candidate description exactly as claim C7 states it: pawns un-move
one square (two from rank 4 respectively 5), and every non-pawn piece yields
one candidate for each empty square of its attack mask, with no further
restriction. -/
def claimedCandidates (env : CandEnv) (movingPiece : Piece) (departure : Nat) : List Nat :=
  if movingPiece = Piece.whitePawn then
    (if 2 ≤ getRank departure then
      [env.getIndexAfterMove movingPiece departure (departure - NORTH)] ++
        (if getRank departure = 3 then
          [env.getIndexAfterMove movingPiece departure (departure - 2 * NORTH)]
         else [])
     else [])
  else if movingPiece = Piece.blackPawn then
    (if getRank departure ≤ 5 then
      [env.getIndexAfterMove movingPiece departure (departure + NORTH)] ++
        (if getRank departure = 4 then
          [env.getIndexAfterMove movingPiece departure (departure + 2 * NORTH)]
         else [])
     else [])
  else
    ((env.pieceAttackMask departure).filter (fun d => !(env.occupied d))).map
      (fun d => env.getIndexAfterMove movingPiece departure d)

/-- The candidate description of claim C7 as amended: as claimed, except
that for a king the squares attacked by the opposing king are removed from
its attack mask before the empty squares are collected. -/
def amendedCandidates (env : CandEnv) (movingPiece : Piece) (departure : Nat) : List Nat :=
  if movingPiece = Piece.whitePawn then
    (if 2 ≤ getRank departure then
      [env.getIndexAfterMove movingPiece departure (departure - NORTH)] ++
        (if getRank departure = 3 then
          [env.getIndexAfterMove movingPiece departure (departure - 2 * NORTH)]
         else [])
     else [])
  else if movingPiece = Piece.blackPawn then
    (if getRank departure ≤ 5 then
      [env.getIndexAfterMove movingPiece departure (departure + NORTH)] ++
        (if getRank departure = 4 then
          [env.getIndexAfterMove movingPiece departure (departure + 2 * NORTH)]
         else [])
     else [])
  else
    let mask := env.pieceAttackMask departure
    let mask :=
      if movingPiece = Piece.whiteKing then
        mask.filter (fun sq => !((env.pieceAttackMask env.blackKingSquare).contains sq))
      else if movingPiece = Piece.blackKing then
        mask.filter (fun sq => !((env.pieceAttackMask env.whiteKingSquare).contains sq))
      else mask
    (mask.filter (fun d => !(env.occupied d))).map
      (fun d => env.getIndexAfterMove movingPiece departure d)

/-- A concrete position for claim C7: white king on a1 (square 0) with
attack mask b1, a2, b2; black king on c2 (square 10) whose attack mask
covers b1 and b2; only the two king squares are occupied; the index lookup
returns the destination square itself. -/
def c7Env : CandEnv :=
  { pieceAttackMask := fun sq =>
      if sq = 0 then [1, 8, 9]
      else if sq = 10 then [1, 2, 3, 9, 11, 17, 18, 19]
      else []
    whiteKingSquare := 0
    blackKingSquare := 10
    occupied := fun sq => sq == 0 || sq == 10
    getIndexAfterMove := fun _ _ destination => destination }

/-! ## Concrete inputs used by witnesses and counterexamples -/

/-- A mated position for claim C6: legal, black to move, in check, no legal
moves. -/
def c6Pos : InitialPosData :=
  { isLegalPosition := true
    isWhiteToMove := false
    isInCheck := true
    legalMoveCount := 0
    captureMoves := [] }

/-- A fresh generation state: nothing marked yet. -/
def c6State : GenState :=
  { won := fun _ => false
    lossOrDraw := fun _ => false
    illegal := fun _ => false
    candidate := fun _ => false }

/-- Index data for claim C3: every index is legal, white to move, with one
quiet move into index 7. -/
def c3Env : Nat → IndexData := fun _ =>
  { isLegal := true
    whiteToMove := true
    moves := [{ isCaptureOrPromote := false, indexAfterMove := 7 }]
    fen := "4k3/8/8/8/8/8/4P3/4K3 w - - 0 1"
    candidates := [] }

/-- A generation state for claim C3 in which index 7 is already won and no
candidate flag is set. -/
def c3State : GenState :=
  { won := fun j => j == 7
    lossOrDraw := fun _ => false
    illegal := fun _ => false
    candidate := fun _ => false }

/-- A generation run for claim C4 with a single index 0 whose only move is
quiet and reaches index 5, and whose position produces no reverse-move
candidates (possible, e.g. for a position whose unmoving side has only a
king all of whose free attack squares are attacked by the opposing king). -/
def c4Env : GenEnv :=
  { size := 1
    data := fun _ =>
      { isLegal := true
        whiteToMove := true
        moves := [{ isCaptureOrPromote := false, indexAfterMove := 5 }]
        fen := "8/8/8/8/8/2k5/NK6/n7 w - - 0 1"
        candidates := [] } }

/-- The starting state for the claim C4 counterexample: index 5 is already
won, index 0 is not. -/
def c4State : GenState :=
  { won := fun j => j == 5
    lossOrDraw := fun _ => false
    illegal := fun _ => false
    candidate := fun _ => false }

/-- An empty generation run (index range of size 0) used by the claim C4
witness. -/
def c4WEnv : GenEnv :=
  { size := 0
    data := fun _ =>
      { isLegal := false
        whiteToMove := true
        moves := []
        fen := ""
        candidates := [] } }

/-- A fresh generation state used by the claim C4 witness. -/
def c4WState : GenState :=
  { won := fun _ => false
    lossOrDraw := fun _ => false
    illegal := fun _ => false
    candidate := fun _ => false }

/-! ## Bitbase index bijection (modelled from the spec)

bitbaseindex.h and boardaccess.h are not among the sources; the index layout
is modelled from the spec: the index is a bijection between
(square of each piece, side to move) and a dense integer, with the stronger
side king mapped into a canonical region of 32 squares (the left half of the
board, as pawn signatures admit only the left-right symmetry) and the
black-to-move bit folded into the index as its lowest bit. -/

/-- Modelled from the spec: the k-th square of the canonical king region,
the left half of the board (files a to d), enumerated rank by rank. -/
def leftHalfSquare (k : Nat) : Nat := (k / 4) * 8 + k % 4

/-- Modelled from the spec: the compact number of a square of the canonical
king region (inverse of leftHalfSquare on files a to d). -/
def leftHalfCompact (square : Nat) : Nat := (square / 8) * 4 + square % 8

/-- The decoded form of a bitbase index: the side to move and the square of
each piece, white king first, black king second, then the remaining pieces
in piece list order (BitbaseIndex::getSquare). -/
structure BitbaseIdx where
  whiteToMove : Bool
  squares : List Nat
deriving DecidableEq

/-- Modelled from the spec: the square part of BoardAccess::getIndex. The
white king square contributes its compact left-half number as the most
significant digit; every further piece square is a base-64 digit. -/
def encodeSquares : List Nat → Nat
  | [] => 0
  | wk :: rest => List.foldl (fun acc sq => acc * 64 + sq) (leftHalfCompact wk) rest

/-- Modelled from the spec: BoardAccess::getIndex of a placement: the square
encoding with the black-to-move bit folded in as the lowest bit. -/
def computeIndex (b : BitbaseIdx) : Nat :=
  encodeSquares b.squares * 2 + (if b.whiteToMove then 0 else 1)

/-- Modelled from the spec: the square list decoded from the square part of
an index for a piece list of the given length: base-64 digits from the least
significant end for all pieces after the white king, whose square is the
remaining leading part read as a compact left-half number. -/
def decodeSquares : Nat → Nat → List Nat
  | 0, _ => []
  | 1, v => [leftHalfSquare v]
  | Nat.succ (Nat.succ k), v => decodeSquares (Nat.succ k) (v / 64) ++ [v % 64]

/-- Modelled from the spec: BitbaseIndex built from an index and a piece
list of the given length (the piece types play no role in the square
decoding). -/
def indexToPlacement (numPieces : Nat) (index : Nat) : BitbaseIdx :=
  { whiteToMove := index % 2 == 0
    squares := decodeSquares numPieces (index / 2) }

/-- Modelled from the spec: the number of indices for a piece list of the
given length: 2 sides to move, 32 canonical king squares, 64 squares for
each further piece. -/
def indexSize (numPieces : Nat) : Nat := 2 * (32 * 64 ^ (numPieces - 1))

/-- Modelled from the spec: a legal index is in range and decodes to a
placement with pairwise distinct squares (BitbaseIndex::isLegal; further
chess legality such as king adjacency only removes more indices and is not
needed for the round trip). -/
def isLegalIndex (numPieces index : Nat) : Prop :=
  index < indexSize numPieces ∧ (decodeSquares numPieces (index / 2)).Nodup

end Qapla

/-! ## Theorems -/

namespace Qapla

/-- Claim C9: ClockSetting::setAnalyseMode ignores its boolean argument: for
every b, after setAnalyseMode b the mode is analyze, so getAnalyseMode
returns true and isPonderMode returns false. -/
theorem c9_setAnalyseMode_ignores_argument (s : ClockSetting) (b : Bool) :
    (s.setAnalyseMode b).getAnalyseMode = true ∧
      (s.setAnalyseMode b).isPonderMode = false ∧
      s.setAnalyseMode b = s.setAnalyseMode (!b) := by
  exact ⟨rfl, rfl, rfl⟩

/-- Claim C10: setExactTimePerMoveInMilliseconds ms sets the exact time per
move to ms and resets the total thinking time, the increment and the move
amount to 0, while leaving the search depth limit, node count, mate setting,
mode, user clock and played-moves count unchanged. -/
theorem c10_setExactTime_frame (s : ClockSetting) (ms : Nat) :
    (s.setExactTimePerMoveInMilliseconds ms).getExactTimePerMoveInMilliseconds = ms ∧
      (s.setExactTimePerMoveInMilliseconds ms).timeToThinkForAllMovesInMilliseconds = 0 ∧
      (s.setExactTimePerMoveInMilliseconds ms).getTimeIncrementPerMoveInMilliseconds = 0 ∧
      (s.setExactTimePerMoveInMilliseconds ms).getMoveAmountForClock = 0 ∧
      (s.setExactTimePerMoveInMilliseconds ms).getSearchDepthLimit = s.getSearchDepthLimit ∧
      (s.setExactTimePerMoveInMilliseconds ms).nodeCount = s.nodeCount ∧
      (s.setExactTimePerMoveInMilliseconds ms).mate = s.mate ∧
      (s.setExactTimePerMoveInMilliseconds ms).mode = s.mode ∧
      (s.setExactTimePerMoveInMilliseconds ms).userClock = s.userClock ∧
      (s.setExactTimePerMoveInMilliseconds ms).getPlayedMovesInGame = s.getPlayedMovesInGame := by
  exact ⟨rfl, rfl, rfl, rfl, rfl, rfl, rfl, rfl, rfl, rfl⟩

/-- Claim C5, counterexample: with 800 ms left, 40 moves to go and zero
increment, calcSearchTime returns 800 / 40 = 20 ms, while the claimed
formula time / max(moves, 80) + increment gives 800 / 80 = 10 ms. -/
theorem c5_soft_budget_counterexample :
    calcSearchTime c5Clock ≠ claimedSoftBudget c5Clock := by
  decide

/-- Claim C5 as amended: the soft budget is time left divided by the
moves-to-go setting when that setting is positive, and divided by 80 only
when the setting is 0 (unset), plus the increment. -/
theorem c5_soft_budget_amended (clockSetting : ClockSetting) :
    calcSearchTime clockSetting = amendedSoftBudget clockSetting := by
  rfl

/-- Claim C8, counterexample: the default size request is 32736 KiB, which is
not a 32 MiB footprint (32 MiB = 32768 KiB), and the spec-modelled power-of-
two table built for that request occupies less than 32 MiB. -/
theorem c8_tt_footprint_counterexample :
    defaultTTSizeInKilobytes * 1024 ≠ 32 * 1024 * 1024 ∧
      ttFootprintInBytes defaultTTSizeInKilobytes ≠ 32 * 1024 * 1024 := by
  decide

/-- Claim C8 as amended: the transposition table is created by default from a
32736 KiB request (just under 32 MiB); the bucket count is a power of two
and the resulting footprint fits within the requested size. -/
theorem c8_tt_default_power_of_two :
    setSizeInKilobytes defaultTTSizeInKilobytes = 2 ^ 19 ∧
      ttFootprintInBytes defaultTTSizeInKilobytes ≤ defaultTTSizeInKilobytes * 1024 ∧
      defaultTTSizeInKilobytes * 1024 < 32 * 1024 * 1024 := by
  decide

/-- The computeValue loop with white to move and accumulator false returns
true exactly when some non-capture non-promotion move of the list reaches a
set bitbase bit. -/
theorem computeValueLoop_white_eq (bitbase : Nat → Bool) (moveList : List GenMove) :
    computeValueLoop bitbase true moveList false =
      moveList.any (fun m => !m.isCaptureOrPromote && bitbase m.indexAfterMove) := by
  induction moveList with
  | nil => rfl
  | cons m rest ih =>
    rw [computeValueLoop, List.any_cons]
    cases hc : m.isCaptureOrPromote <;> cases hb : bitbase m.indexAfterMove <;>
      simp [hc, hb, ih]

/-- The computeValue loop with black to move and accumulator true returns
true exactly when every non-capture non-promotion move of the list reaches a
set bitbase bit. -/
theorem computeValueLoop_black_eq (bitbase : Nat → Bool) (moveList : List GenMove) :
    computeValueLoop bitbase false moveList true =
      moveList.all (fun m => m.isCaptureOrPromote || bitbase m.indexAfterMove) := by
  induction moveList with
  | nil => rfl
  | cons m rest ih =>
    rw [computeValueLoop, List.all_cons]
    cases hc : m.isCaptureOrPromote <;> cases hb : bitbase m.indexAfterMove <;>
      simp [hc, hb, ih]

/-- Claim C1: in an iterative sweep, with the stronger side (white) to move a
position is recognized as won exactly when some enumerated non-capture,
non-promotion move reaches a position already marked won; with the weaker
side (black) to move exactly when every enumerated non-capture, non-promotion
move reaches a position already marked won (capture and promotion moves are
skipped by the enumeration, having been settled by the initial capture
search); and computePosition marks the index won exactly on that condition. -/
theorem c1_iterative_sweep_min_max_rule (bitbase : Nat → Bool) (moveList : List GenMove)
    (index : Nat) (st : GenState) :
    (computeValue bitbase true moveList = true ↔
      ∃ m ∈ moveList, m.isCaptureOrPromote = false ∧ bitbase m.indexAfterMove = true) ∧
      (computeValue bitbase false moveList = true ↔
        ∀ m ∈ moveList, m.isCaptureOrPromote = false → bitbase m.indexAfterMove = true) ∧
      (∀ whiteToMove,
        ((computePosition index whiteToMove moveList st).2.won index = true ↔
          computeValue st.getWonPositions whiteToMove moveList = true ∨ st.won index = true)) := by
  refine ⟨?_, ?_, ?_⟩
  · rw [show computeValue bitbase true moveList =
        computeValueLoop bitbase true moveList false from rfl]
    rw [computeValueLoop_white_eq]
    simp [List.any_eq_true]
  · rw [show computeValue bitbase false moveList =
        computeValueLoop bitbase false moveList true from rfl]
    rw [computeValueLoop_black_eq]
    simp only [List.all_eq_true, Bool.or_eq_true]
    constructor
    · intro h m hm hq
      rcases h m hm with hcap | hbit
      · rw [hq] at hcap
        cases hcap
      · exact hbit
    · intro h m hm
      cases hc : m.isCaptureOrPromote
      · exact Or.inr (h m hm hc)
      · exact Or.inl rfl
  · intro whiteToMove
    cases hv : computeValue st.getWonPositions whiteToMove moveList <;>
      simp [computePosition, hv, GenState.setWin]

/-- Claim C6: in the initial sweep, a legal position with no legal moves is
marked won exactly when the side to move is in check and is the weaker side
(black); with no legal moves and no check (stalemate) it is marked not won. -/
theorem c6_initial_mate_stalemate (index : Nat) (pos : InitialPosData) (st : GenState)
    (hLegal : pos.isLegalPosition = true) (hNoMoves : pos.legalMoveCount = 0)
    (hFreshWon : st.won index = false) (hFreshNW : st.lossOrDraw index = false) :
    ((initialComputePosition index pos st).2.won index = true ↔
      pos.isWhiteToMove = false ∧ pos.isInCheck = true) ∧
      (pos.isInCheck = false →
        (initialComputePosition index pos st).2.lossOrDraw index = true ∧
          (initialComputePosition index pos st).2.won index = false) := by
  cases hw : pos.isWhiteToMove <;> cases hcheck : pos.isInCheck <;>
    simp [initialComputePosition, hLegal, hNoMoves, hw, hcheck, GenState.setWin,
      GenState.setLossOrDraw, hFreshWon, hFreshNW]

/-- Claim C6 witness: the mated-black position of c6Pos, at the fresh state,
is marked won, and the marking condition evaluates as the theorem states. -/
theorem c6_initial_mate_stalemate_witness :
    (initialComputePosition 0 c6Pos c6State).2.won 0 = true ↔
      c6Pos.isWhiteToMove = false ∧ c6Pos.isInCheck = true :=
  (c6_initial_mate_stalemate 0 c6Pos c6State rfl rfl rfl rfl).1

/-- Claim C3: outside the first sweep, a work item that computePosition
recognizes as won while its candidate flag is unset makes computeWorkpackage
end with the fatal error carrying exit code 1 and the index and FEN of the
position, regardless of the remaining work: generation never continues past
the inconsistency, and the exit code is non-zero. -/
theorem c3_missing_candidate_aborts (env : Nat → IndexData) (st : GenState)
    (index : Nat) (rest : List Nat) (acc : List Nat)
    (hLegal : (env index).isLegal = true)
    (hWin : computeValue st.getWonPositions (env index).whiteToMove (env index).moves = true)
    (hNoCand : st.isCandidate index = false) :
    computeWorkpackage env false (index :: rest) st acc =
        Except.error { exitCode := 1, index := index, fen := (env index).fen } ∧
      ∀ e : FatalError,
        computeWorkpackage env false (index :: rest) st acc = Except.error e →
          e.exitCode ≠ 0 := by
  have h1 : computeWorkpackage env false (index :: rest) st acc =
      Except.error { exitCode := 1, index := index, fen := (env index).fen } := by
    rw [computeWorkpackage]
    simp [hLegal, computePosition, hWin, hNoCand]
  refine ⟨h1, ?_⟩
  intro e he
  rw [h1] at he
  have : ({ exitCode := 1, index := index, fen := (env index).fen } : FatalError) = e := by
    injection he
  rw [← this]
  exact Nat.one_ne_zero

/-- Claim C3 witness: at the concrete c3Env and c3State, index 3 is newly
won (its quiet move reaches the won index 7) but not flagged candidate, so
the workpackage aborts fatally with exit code 1 and the FEN of index 3,
leaving the remaining work item 4 unprocessed. -/
theorem c3_missing_candidate_aborts_witness :
    computeWorkpackage c3Env false (3 :: [4]) c3State [] =
      Except.error { exitCode := 1, index := 3, fen := "4k3/8/8/8/8/8/4P3/4K3 w - - 0 1" } :=
  (c3_missing_candidate_aborts c3Env c3State 3 [4] [] rfl rfl rfl).1

/-- A workpackage in which no legal index is recognized as won leaves the
state and the candidate list unchanged and does not abort. -/
theorem computeWorkpackage_no_new_win (env : Nat → IndexData) (firstLoop : Bool)
    (work : List Nat) (st : GenState) (acc : List Nat)
    (h : ∀ i ∈ work, (env i).isLegal = true →
      computeValue st.getWonPositions (env i).whiteToMove (env i).moves = false) :
    computeWorkpackage env firstLoop work st acc = Except.ok (st, acc) := by
  induction work with
  | nil => rfl
  | cons i rest ih =>
    have hrest : ∀ j ∈ rest, (env j).isLegal = true →
        computeValue st.getWonPositions (env j).whiteToMove (env j).moves = false :=
      fun j hj => h j (List.mem_cons_of_mem _ hj)
    rw [computeWorkpackage]
    cases hleg : (env i).isLegal
    · simp [hleg, ih hrest]
    · have hv := h i (List.mem_cons_self _ _) hleg
      simp [hleg, computePosition, hv, ih hrest]

/-- The sweep loop returns a sweep count bounded by the initial loop counter
plus the fuel. -/
theorem computeBitbaseLoop_sweeps_le (env : GenEnv) (fuel : Nat) :
    ∀ (sweeps : Nat) (st st1 : GenState) (n : Nat),
      computeBitbaseLoop env fuel sweeps st = Except.ok (st1, n) → n ≤ sweeps + fuel := by
  induction fuel with
  | zero =>
    intro sweeps st st1 n h
    rw [computeBitbaseLoop] at h
    injection h with h
    have : n = sweeps := congrArg Prod.snd h.symm
    omega
  | succ fuel ih =>
    intro sweeps st st1 n h
    rw [computeBitbaseLoop] at h
    split at h
    · cases h
    · dsimp only at h
      split at h
      · injection h with h
        have : n = sweeps + 1 := congrArg Prod.snd h.symm
        omega
      · have := ih (sweeps + 1) _ _ _ h
        omega

/-- Claim C4, counterexample: the concrete run of c4Env from c4State stops
after its very first sweep, yet that sweep newly marked index 0 won (its won
bit was unset before the run and set after); the loop stopped because the
newly won position produced no reverse-move candidates, not because no new
won position was produced. -/
theorem c4_stop_despite_new_win_counterexample :
    sweepsOf (computeBitbase c4Env c4State) = 1 ∧
      finalWonBit (computeBitbase c4Env c4State) 0 = true ∧
      c4State.won 0 = false := by
  exact ⟨rfl, rfl, rfl⟩

/-- Claim C4 as amended: the sweep loop of bitbase generation terminates for
every signature, after at most 1024 sweeps; it stops as soon as a sweep
produces no reverse-move candidates, which is in particular the case when a
sweep produces no new won position; and at that point every index whose won
bit is unset - so every index not marked won or illegal - has bit 0 in the
stored bitbase, i.e. counts as not_won. -/
theorem c4_sweep_loop_amended :
    (∀ (env : GenEnv) (st st1 : GenState) (n : Nat),
      computeBitbase env st = Except.ok (st1, n) → n ≤ 1024) ∧
      (∀ (env : GenEnv) (st : GenState) (fuel sweeps : Nat),
        (∀ i ∈ st.getWork env.size (!(sweeps == 0)), (env.data i).isLegal = true →
          computeValue st.getWonPositions (env.data i).whiteToMove (env.data i).moves = false) →
        computeBitbaseLoop env (fuel + 1) sweeps st =
          Except.ok ((st.clearAllCandidates).setCandidates [], sweeps + 1)) ∧
      (∀ (st1 : GenState) (index : Nat), st1.won index = false →
        st1.storedBitbaseBit index = false) := by
  refine ⟨?_, ?_, ?_⟩
  · intro env st st1 n h
    have := computeBitbaseLoop_sweeps_le env 1024 0 st st1 n h
    omega
  · intro env st fuel sweeps h
    rw [computeBitbaseLoop, computeWorkpackage_no_new_win env.data _ _ _ _ h]
    rfl
  · intro st1 index h
    exact h

/-- Claim C4 witness: the amended statements evaluated on the empty run
c4WEnv from the fresh state c4WState: its sweep count 1 is within the 1024
bound, a sweep over its empty work set stops the loop at once, and an index
with unset won bit has bit 0 in the stored bitbase. -/
theorem c4_sweep_loop_amended_witness :
    (1 : Nat) ≤ 1024 ∧
      computeBitbaseLoop c4WEnv (0 + 1) 0 c4WState =
        Except.ok ((c4WState.clearAllCandidates).setCandidates [], 0 + 1) ∧
      c4WState.storedBitbaseBit 0 = false :=
  ⟨c4_sweep_loop_amended.1 c4WEnv c4WState
      ((c4WState.clearAllCandidates).setCandidates []) 1 rfl,
    c4_sweep_loop_amended.2.1 c4WEnv c4WState 0 0 (by simp [GenState.getWork, c4WEnv]),
    c4_sweep_loop_amended.2.2 c4WState 0 rfl⟩

/-- Claim C7, counterexample: for the white king of c7Env (a1, with b1, a2
and b2 in its attack mask and only a2 unattacked by the black king on c2),
computeCandidates yields one candidate, not one candidate per empty square
of the attack mask as the claim states: squares attacked by the opposing
king are excluded for a king. -/
theorem c7_king_candidates_counterexample :
    computeCandidates c7Env Piece.whiteKing 0 ≠ claimedCandidates c7Env Piece.whiteKing 0 := by
  decide

/-- Claim C7 as amended: for every newly won position, each pawn un-moves
one square backwards (a white pawn from rank 3 or higher, a black pawn from
rank 6 or lower) and additionally two squares from rank 4 respectively rank
5, and every non-pawn piece yields one candidate for each empty square of
its attack mask, where for a king the squares attacked by the opposing king
are first removed from its attack mask. -/
theorem c7_reverse_move_candidates_amended (env : CandEnv) (movingPiece : Piece)
    (departure : Nat) :
    computeCandidates env movingPiece departure =
      amendedCandidates env movingPiece departure := by
  have hwp : (2 ≤ getRank departure) = (A3 ≤ departure) := by
    simp only [getRank, A3]
    exact propext (by omega)
  have hbp : (getRank departure ≤ 5) = (departure ≤ H6) := by
    simp only [getRank, H6]
    exact propext (by omega)
  cases movingPiece <;>
    simp [computeCandidates, amendedCandidates, Piece.isPawn, hwp, hbp]

/-- The compact left-half number is a left inverse of the left-half square
enumeration. -/
theorem leftHalf_roundtrip (k : Nat) :
    leftHalfCompact (leftHalfSquare k) = k := by
  simp only [leftHalfSquare, leftHalfCompact]
  omega

/-- The decoded square list has one square per piece. -/
theorem decodeSquares_length (n : Nat) :
    ∀ v : Nat, (decodeSquares (n + 1) v).length = n + 1 := by
  induction n with
  | zero => intro v; rfl
  | succ k ih =>
    intro v
    rw [show decodeSquares (k + 2) v =
      decodeSquares (k + 1) (v / 64) ++ [v % 64] from rfl]
    simp [ih]

/-- Appending a base-64 digit to a non-empty square list multiplies its
encoding by 64 and adds the digit. -/
theorem encodeSquares_append_digit (l : List Nat) (d : Nat) (h : l ≠ []) :
    encodeSquares (l ++ [d]) = encodeSquares l * 64 + d := by
  cases l with
  | nil => exact absurd rfl h
  | cons wk rest => simp [encodeSquares, List.foldl_append]

/-- Decoding the square part of an in-range index and re-encoding it is the
identity. -/
theorem encodeSquares_decodeSquares (n : Nat) :
    ∀ v : Nat, v < 32 * 64 ^ n → encodeSquares (decodeSquares (n + 1) v) = v := by
  induction n with
  | zero =>
    intro v hv
    rw [show decodeSquares 1 v = [leftHalfSquare v] from rfl]
    rw [show encodeSquares [leftHalfSquare v] = leftHalfCompact (leftHalfSquare v) from rfl]
    exact leftHalf_roundtrip v
  | succ k ih =>
    intro v hv
    have hlt : v / 64 < 32 * 64 ^ k := by
      rw [Nat.div_lt_iff_lt_mul (by norm_num : (0:Nat) < 64)]
      calc v < 32 * 64 ^ (k + 1) := hv
        _ = 32 * 64 ^ k * 64 := by ring
    have hne : decodeSquares (k + 1) (v / 64) ≠ [] := by
      intro hnil
      have := decodeSquares_length k (v / 64)
      rw [hnil] at this
      simp at this
    rw [show decodeSquares (k + 2) v =
      decodeSquares (k + 1) (v / 64) ++ [v % 64] from rfl]
    rw [encodeSquares_append_digit _ _ hne, ih _ hlt]
    omega

/-- Claim C2: for every bitbase index that decodes to a legal piece
placement, placing the pieces according to the index and recomputing the
index from the resulting placement yields the original index. -/
theorem c2_index_roundtrip (numPieces index : Nat) (hn : 1 ≤ numPieces)
    (h : isLegalIndex numPieces index) :
    computeIndex (indexToPlacement numPieces index) = index := by
  obtain ⟨hrange, -⟩ := h
  obtain ⟨m, rfl⟩ : ∃ m, numPieces = m + 1 := ⟨numPieces - 1, by omega⟩
  have hsize : indexSize (m + 1) = 2 * (32 * 64 ^ m) := by
    simp [indexSize]
  rw [hsize] at hrange
  have hv : index / 2 < 32 * 64 ^ m := by
    generalize 32 * 64 ^ m = K at hrange ⊢
    omega
  simp only [computeIndex, indexToPlacement]
  rw [encodeSquares_decodeSquares m _ hv]
  by_cases hp : index % 2 = 0
  · simp only [hp]
    simp
    omega
  · have h1 : index % 2 = 1 := by omega
    simp only [h1]
    simp
    omega

/-- Claim C2 witness: index 1320 for a three-piece list is legal (it decodes
to the distinct squares a1, c2, e3 with white to move) and the round trip
through the placement returns 1320. -/
theorem c2_index_roundtrip_witness :
    ((1 : Nat) ≤ 3 ∧ isLegalIndex 3 1320) ∧
      computeIndex (indexToPlacement 3 1320) = 1320 :=
  ⟨⟨by decide, ⟨by decide, by decide⟩⟩,
    c2_index_roundtrip 3 1320 (by decide) ⟨by decide, by decide⟩⟩

end Qapla
